import Mathlib

/-!
# Verification of the Replik timeline edit engine

Shallow embedding of the timeline edit engine of the Replik voice-recorder:

* `src/src/stores/audioEditorStore.ts` — the zustand store holding the
  multi-track Timeline Model and the snapshot-based undo/redo history;
* `src/electron/preload.ts` (`AudioProcessor`) — the selection-scoped
  transform pipeline (`deleteSelection`, `applyEffectToSelection`), the
  speed decomposition (`changeSpeed`) and the volume-envelope expression
  compiler (`applyVolumeEnvelope`);
* `src/src/components/AdvancedAudioEditor.tsx` (`applyEffect`) — the caller
  that converts a shared-timeline selection to track-local time and clamps it.

Seconds and dB values are modelled as rationals (JS numbers, no overflow in
scope here).  The ffmpeg engine and the filesystem are modelled by an oracle
that decides the success of each external step; runs record which temporary
files were created and which deletions were attempted.
-/

namespace Replik

/-! ## Data model (audioEditorStore.ts lines 4-43, types/index.ts `Take`) -/

/-- Fields of `Take` (src/src/types/index.ts) used by the editor store. -/
structure Take where
  id : String
  fileName : String
  filePath : String
  duration : ℚ
deriving DecidableEq, Repr

/-- `AudioRegion` (audioEditorStore.ts lines 4-9).  The source field `end`
is a Lean keyword and is rendered `stop` here. -/
structure AudioRegion where
  id : String
  start : ℚ
  stop : ℚ
deriving DecidableEq, Repr

/-- `EnvelopePoint` (audioEditorStore.ts lines 11-15): `volume` is in dB. -/
structure EnvelopePoint where
  id : String
  time : ℚ
  volume : ℚ
deriving DecidableEq, Repr

/-- `AudioTrack` (audioEditorStore.ts lines 17-28). -/
structure AudioTrack where
  id : String
  take : Take
  offset : ℚ
  duration : ℚ
  muted : Bool
  solo : Bool
  volume : ℚ
  gain : ℚ
  regions : List AudioRegion
  envelopePoints : List EnvelopePoint
deriving DecidableEq, Repr

/-- `ClipboardData` (audioEditorStore.ts lines 30-36); `type` is the literal
union `'region' | 'track'`, kept as a string. -/
structure ClipboardData where
  type : String
  startTime : ℚ
  endTime : ℚ
  trackId : String
  filePath : String
deriving DecidableEq, Repr

/-- `HistoryState` (audioEditorStore.ts lines 38-43): one undo snapshot. -/
structure HistoryState where
  tracks : List AudioTrack
  selectedTrackId : Option String
  selectedRegionStart : Option ℚ
  selectedRegionEnd : Option ℚ
deriving DecidableEq, Repr

/-- The state held by `useAudioEditorStore` (audioEditorStore.ts lines
45-117, initial values lines 122-137).  `toolMode` is kept as a string. -/
structure EditorState where
  tracks : List AudioTrack
  selectedTrackId : Option String
  selectedRegionStart : Option ℚ
  selectedRegionEnd : Option ℚ
  cursorPosition : ℚ
  clipboard : Option ClipboardData
  isPlaying : Bool
  currentTime : ℚ
  duration : ℚ
  zoom : ℚ
  scrollLeft : ℚ
  toolMode : String
  history : List HistoryState
  historyIndex : Int
deriving DecidableEq, Repr

/-- The store's initial state (audioEditorStore.ts lines 122-137). -/
def initialState : EditorState where
  tracks := []
  selectedTrackId := none
  selectedRegionStart := none
  selectedRegionEnd := none
  cursorPosition := 0
  clipboard := none
  isPlaying := false
  currentTime := 0
  duration := 0
  zoom := 100
  scrollLeft := 0
  toolMode := "select"
  history := []
  historyIndex := -1

/-! ## History Manager (audioEditorStore.ts lines 366-433) -/

/-- The snapshot taken by `saveToHistory` (lines 370-375).  `structuredClone`
is the identity in this pure model. -/
def snapshotOf (s : EditorState) : HistoryState where
  tracks := s.tracks
  selectedTrackId := s.selectedTrackId
  selectedRegionStart := s.selectedRegionStart
  selectedRegionEnd := s.selectedRegionEnd

/-- `saveToHistory` (lines 366-399): seed if empty, else truncate to
`[0..historyIndex]` (`Array.slice(0, historyIndex + 1)`), push the snapshot,
`shift()` once when the length exceeds 50, and point the cursor at the end. -/
def saveToHistory (s : EditorState) : EditorState :=
  let snapshot := snapshotOf s
  if s.history.length = 0 then
    { s with history := [snapshot], historyIndex := 0 }
  else
    let newHistory := s.history.take (s.historyIndex + 1).toNat ++ [snapshot]
    let newHistory := if 50 < newHistory.length then newHistory.drop 1 else newHistory
    { s with history := newHistory, historyIndex := (newHistory.length : Int) - 1 }

/-- `undo` (lines 401-416): no-op when there is no history or the cursor is
at (or below) 0; otherwise restore `history[historyIndex - 1]` and decrement
the cursor.  The out-of-range fallback is unreachable whenever
`historyIndex < history.length` (JS would fault there). -/
def undo (s : EditorState) : EditorState :=
  if s.history.length = 0 ∨ s.historyIndex ≤ 0 then s
  else
    match s.history[(s.historyIndex - 1).toNat]? with
    | some prevState =>
        { s with
          tracks := prevState.tracks
          selectedTrackId := prevState.selectedTrackId
          selectedRegionStart := prevState.selectedRegionStart
          selectedRegionEnd := prevState.selectedRegionEnd
          historyIndex := s.historyIndex - 1 }
    | none => s

/-- `redo` (lines 418-430): no-op at the end of history; otherwise restore
`history[historyIndex + 1]` and increment the cursor. -/
def redo (s : EditorState) : EditorState :=
  if s.historyIndex < (s.history.length : Int) - 1 then
    match s.history[(s.historyIndex + 1).toNat]? with
    | some nextState =>
        { s with
          tracks := nextState.tracks
          selectedTrackId := nextState.selectedTrackId
          selectedRegionStart := nextState.selectedRegionStart
          selectedRegionEnd := nextState.selectedRegionEnd
          historyIndex := s.historyIndex + 1 }
    | none => s
  else s

/-- `canUndo` (line 432). -/
def canUndo (s : EditorState) : Bool := decide (0 < s.historyIndex)

/-- `canRedo` (line 433). -/
def canRedo (s : EditorState) : Bool := decide (s.historyIndex < (s.history.length : Int) - 1)

/-! ## Timeline Model mutations (audioEditorStore.ts lines 140-214, 319-363) -/

/-- `Partial<AudioTrack>` for `updateTrack`: present fields overwrite. -/
structure TrackUpdate where
  id : Option String := none
  take : Option Take := none
  offset : Option ℚ := none
  duration : Option ℚ := none
  muted : Option Bool := none
  solo : Option Bool := none
  volume : Option ℚ := none
  gain : Option ℚ := none
  regions : Option (List AudioRegion) := none
  envelopePoints : Option (List EnvelopePoint) := none
deriving DecidableEq, Repr

/-- The spread `{ ...t, ...updates }` of `updateTrack`. -/
def applyTrackUpdate (u : TrackUpdate) (t : AudioTrack) : AudioTrack where
  id := u.id.getD t.id
  take := u.take.getD t.take
  offset := u.offset.getD t.offset
  duration := u.duration.getD t.duration
  muted := u.muted.getD t.muted
  solo := u.solo.getD t.solo
  volume := u.volume.getD t.volume
  gain := u.gain.getD t.gain
  regions := u.regions.getD t.regions
  envelopePoints := u.envelopePoints.getD t.envelopePoints

/-- `addTrack` (lines 140-166).  `newId` stands for the `generateTrackId()`
call (clock/random based, modelled as an argument). -/
def addTrack (take : Take) (newId : String) (s : EditorState) : EditorState :=
  let s := saveToHistory s
  let maxEnd := s.tracks.foldl (fun m t => max m (t.offset + t.duration)) 0
  let newTrack : AudioTrack :=
    { id := newId, take := take, offset := maxEnd, duration := take.duration
      muted := false, solo := false, volume := 1, gain := 0
      regions := [], envelopePoints := [] }
  { s with
    tracks := s.tracks ++ [newTrack]
    duration := max s.duration (maxEnd + take.duration) }

/-- `removeTrack` (lines 168-174). -/
def removeTrack (trackId : String) (s : EditorState) : EditorState :=
  let s := saveToHistory s
  { s with
    tracks := s.tracks.filter (fun t => t.id ≠ trackId)
    selectedTrackId := if s.selectedTrackId = some trackId then none else s.selectedTrackId }

/-- `updateTrack` (lines 176-182).  Note: the source does **not** call
`saveToHistory` here. -/
def updateTrack (trackId : String) (updates : TrackUpdate) (s : EditorState) : EditorState :=
  { s with
    tracks := s.tracks.map (fun t => if t.id = trackId then applyTrackUpdate updates t else t) }

/-- `setTracks` (lines 184-189). -/
def setTracks (tracks : List AudioTrack) (s : EditorState) : EditorState :=
  let s := saveToHistory s
  let duration := tracks.foldl (fun m t => max m (t.offset + t.duration)) 0
  { s with tracks := tracks, duration := duration }

/-- `clearTracks` (lines 191-194). -/
def clearTracks (s : EditorState) : EditorState :=
  let s := saveToHistory s
  { s with
    tracks := [], selectedTrackId := none
    selectedRegionStart := none, selectedRegionEnd := none, duration := 0 }

/-- `setSelection` (lines 198-201). -/
def setSelection (start stop : Option ℚ) (s : EditorState) : EditorState :=
  { s with selectedRegionStart := start, selectedRegionEnd := stop }

/-- The comparator `(a, b) => a.time - b.time` of the envelope sorts: sort
ascending by time.  JS `Array.prototype.sort` is stable; `insertionSort`
with a non-strict order is likewise stable, and reduces in the kernel. -/
def pointTimeLE (a b : EnvelopePoint) : Prop := a.time ≤ b.time

instance : DecidableRel pointTimeLE := fun a b => inferInstanceAs (Decidable (a.time ≤ b.time))

instance : IsTotal EnvelopePoint pointTimeLE := ⟨fun a b => le_total a.time b.time⟩

instance : IsTrans EnvelopePoint pointTimeLE := ⟨fun _ _ _ => le_trans⟩

/-- `addEnvelopePoint` (lines 319-337): append the new point and re-sort by
time.  `newId` stands for `generatePointId()`. -/
def addEnvelopePoint (trackId : String) (time volume : ℚ) (newId : String)
    (s : EditorState) : EditorState :=
  let s := saveToHistory s
  let newPoint : EnvelopePoint := { id := newId, time := time, volume := volume }
  { s with
    tracks := s.tracks.map (fun t =>
      if t.id = trackId then
        { t with envelopePoints := List.insertionSort pointTimeLE (t.envelopePoints ++ [newPoint]) }
      else t) }

/-- `Partial<EnvelopePoint>` for `updateEnvelopePoint`. -/
structure EnvelopePointUpdate where
  id : Option String := none
  time : Option ℚ := none
  volume : Option ℚ := none
deriving DecidableEq, Repr

/-- The spread `{ ...p, ...updates }` of `updateEnvelopePoint`. -/
def applyPointUpdate (u : EnvelopePointUpdate) (p : EnvelopePoint) : EnvelopePoint where
  id := u.id.getD p.id
  time := u.time.getD p.time
  volume := u.volume.getD p.volume

/-- `updateEnvelopePoint` (lines 339-352): map the update over the points and
re-sort by time.  Note: the source does **not** call `saveToHistory` here. -/
def updateEnvelopePoint (trackId pointId : String) (updates : EnvelopePointUpdate)
    (s : EditorState) : EditorState :=
  { s with
    tracks := s.tracks.map (fun t =>
      if t.id = trackId then
        { t with
          envelopePoints :=
            List.insertionSort pointTimeLE (t.envelopePoints.map (fun p =>
              if p.id = pointId then applyPointUpdate updates p else p)) }
      else t) }

/-- `removeEnvelopePoint` (lines 354-363). -/
def removeEnvelopePoint (trackId pointId : String) (s : EditorState) : EditorState :=
  let s := saveToHistory s
  { s with
    tracks := s.tracks.map (fun t =>
      if t.id = trackId then
        { t with envelopePoints := t.envelopePoints.filter (fun p => p.id ≠ pointId) }
      else t) }

/-! ## Sample states used in concrete scenarios -/

def sampleTake : Take := ⟨"take1", "a.wav", "/a.wav", 3⟩

def sampleTrack : AudioTrack := ⟨"t1", sampleTake, 0, 3, false, false, 1, 0, [], []⟩

def sampleState : EditorState := { initialState with tracks := [sampleTrack] }

/-! ## Basic facts about `saveToHistory` -/

theorem saveToHistory_historyIndex (s : EditorState) :
    (saveToHistory s).historyIndex = ((saveToHistory s).history.length : Int) - 1 := by
  unfold saveToHistory
  split <;> simp

theorem saveToHistory_history_ne_nil (s : EditorState) :
    (saveToHistory s).history ≠ [] := by
  unfold saveToHistory
  split
  · simp
  · dsimp only
    split
    · next h =>
      intro hcon
      have := congrArg List.length hcon
      simp only [List.length_drop, List.length_nil] at this
      omega
    · simp

theorem saveToHistory_getLast? (s : EditorState) :
    (saveToHistory s).history.getLast? = some (snapshotOf s) := by
  unfold saveToHistory
  split
  · simp
  · dsimp only
    split
    · next h =>
      set x := s.history.take (s.historyIndex + 1).toNat ++ [snapshotOf s] with hx
      rw [List.getLast?_eq_getElem?, List.length_drop, List.getElem?_drop]
      have hxlen : 2 ≤ x.length := by omega
      have h1 : 1 + (x.length - 1 - 1) = x.length - 1 := by omega
      rw [h1, ← List.getLast?_eq_getElem?, hx, List.getLast?_concat]
    · exact List.getLast?_concat _

theorem saveToHistory_tracks (s : EditorState) : (saveToHistory s).tracks = s.tracks := by
  unfold saveToHistory
  split <;> rfl

/-- After a second `saveToHistory` on a state whose cursor sits at the end of
a non-empty history, the top of the history is the new snapshot and the
entry below it is the previous last entry (the cap-eviction case included). -/
theorem saveToHistory_top_two (s : EditorState) (hne : s.history ≠ [])
    (hidx : s.historyIndex = (s.history.length : Int) - 1) :
    2 ≤ (saveToHistory s).history.length ∧
    (saveToHistory s).history[(saveToHistory s).history.length - 1]? = some (snapshotOf s) ∧
    (saveToHistory s).history[(saveToHistory s).history.length - 2]? = s.history.getLast? := by
  have hlen : 1 ≤ s.history.length := List.length_pos.mpr hne
  unfold saveToHistory
  rw [if_neg (by omega)]
  have htake : (s.historyIndex + 1).toNat = s.history.length := by omega
  rw [htake, List.take_length]
  dsimp only
  set l := s.history with hl
  split
  · next h =>
    -- cap eviction: `shift()` drops the oldest entry
    have hxlen : (l ++ [snapshotOf s]).length = l.length + 1 := by simp
    have hlen50 : 50 ≤ l.length := by omega
    have hdlen : ((l ++ [snapshotOf s]).drop 1).length = l.length := by simp
    refine ⟨by omega, ?_, ?_⟩
    · rw [hdlen, List.getElem?_drop]
      have : 1 + (l.length - 1) = l.length := by omega
      rw [this, List.getElem?_append_right (le_refl _)]
      simp
    · rw [hdlen, List.getElem?_drop]
      have : 1 + (l.length - 2) = l.length - 1 := by omega
      rw [this, List.getElem?_append_left (by omega), List.getLast?_eq_getElem?]
  · next h =>
    have hxlen : (l ++ [snapshotOf s]).length = l.length + 1 := by simp
    refine ⟨by omega, ?_, ?_⟩
    · rw [hxlen]
      have : l.length + 1 - 1 = l.length := by omega
      rw [this, List.getElem?_append_right (le_refl _)]
      simp
    · rw [hxlen]
      have : l.length + 1 - 2 = l.length - 1 := by omega
      rw [this, List.getElem?_append_left (by omega), List.getLast?_eq_getElem?]

/-- Closed form of `undo` when it fires. -/
theorem undo_eq (s : EditorState) (prev : HistoryState)
    (h1 : ¬(s.history.length = 0 ∨ s.historyIndex ≤ 0))
    (h2 : s.history[(s.historyIndex - 1).toNat]? = some prev) :
    undo s =
      { s with
        tracks := prev.tracks
        selectedTrackId := prev.selectedTrackId
        selectedRegionStart := prev.selectedRegionStart
        selectedRegionEnd := prev.selectedRegionEnd
        historyIndex := s.historyIndex - 1 } := by
  unfold undo
  rw [if_neg h1, h2]

/-- Closed form of `redo` when it fires. -/
theorem redo_eq (s : EditorState) (next : HistoryState)
    (h1 : s.historyIndex < (s.history.length : Int) - 1)
    (h2 : s.history[(s.historyIndex + 1).toNat]? = some next) :
    redo s =
      { s with
        tracks := next.tracks
        selectedTrackId := next.selectedTrackId
        selectedRegionStart := next.selectedRegionStart
        selectedRegionEnd := next.selectedRegionEnd
        historyIndex := s.historyIndex + 1 } := by
  unfold redo
  rw [if_pos h1, h2]

/-! ## Claim C1 — undo/redo after `save; mutate(A); save; mutate(B)` -/

/-- **C1, counterexample.**  The claim states that after
`saveSnapshot(); mutate(A); saveSnapshot(); mutate(B); undo()` the live state
equals the state after `mutate(A)` only, and a subsequent `redo()` restores
the state after `mutate(B)`.  With `mutate(A) = updateTrack(gain := 1)` and
`mutate(B) = updateTrack(gain := 2)` on a one-track editor, `undo` instead
restores the state *before* `mutate(A)` (gain 0) and `redo` restores the
state after `mutate(A)` (gain 1), so both parts of the claim fail. -/
theorem undo_after_two_saves_counterexample :
    ¬((undo (updateTrack "t1" { gain := some 2 }
          (saveToHistory (updateTrack "t1" { gain := some 1 }
            (saveToHistory sampleState))))).tracks =
        (updateTrack "t1" { gain := some 1 } (saveToHistory sampleState)).tracks ∧
      (redo (undo (updateTrack "t1" { gain := some 2 }
          (saveToHistory (updateTrack "t1" { gain := some 1 }
            (saveToHistory sampleState)))))).tracks =
        (updateTrack "t1" { gain := some 2 }
          (saveToHistory (updateTrack "t1" { gain := some 1 }
            (saveToHistory sampleState)))).tracks) := by
  decide

/-- **C1, amended.**  For the sequence `saveSnapshot(); mutate(A);
saveSnapshot(); mutate(B); undo()` from any initial editor state — mutations
modelled as arbitrary functions that leave the history fields untouched —
the live state after `undo()` equals the *initial* state (before
`mutate(A)`), and a subsequent `redo()` restores the state after `mutate(A)`;
the state after `mutate(B)` was never snapshotted and is not restored. -/
theorem undo_restores_initial_redo_restores_A (s0 : EditorState)
    (f g : EditorState → EditorState)
    (hf : ∀ s, (f s).history = s.history ∧ (f s).historyIndex = s.historyIndex)
    (hg : ∀ s, (g s).history = s.history ∧ (g s).historyIndex = s.historyIndex) :
    snapshotOf (undo (g (saveToHistory (f (saveToHistory s0))))) = snapshotOf s0 ∧
    snapshotOf (redo (undo (g (saveToHistory (f (saveToHistory s0)))))) =
      snapshotOf (f (saveToHistory s0)) := by
  obtain ⟨hlen3, htop, hsec⟩ := saveToHistory_top_two (f (saveToHistory s0))
    (by rw [(hf _).1]; exact saveToHistory_history_ne_nil s0)
    (by rw [(hf _).1, (hf _).2]; exact saveToHistory_historyIndex s0)
  set s3 := saveToHistory (f (saveToHistory s0)) with hs3
  have h3idx : s3.historyIndex = (s3.history.length : Int) - 1 := saveToHistory_historyIndex _
  have hg1 : (g s3).history = s3.history := (hg s3).1
  have hg2 : (g s3).historyIndex = s3.historyIndex := (hg s3).2
  have hsec' : s3.history[s3.history.length - 2]? = some (snapshotOf s0) := by
    rw [hsec, (hf _).1]
    exact saveToHistory_getLast? s0
  have hcond : ¬((g s3).history.length = 0 ∨ (g s3).historyIndex ≤ 0) := by
    rw [hg1, hg2, h3idx]
    push_neg
    exact ⟨by omega, by omega⟩
  have hidxnat : ((g s3).historyIndex - 1).toNat = s3.history.length - 2 := by
    rw [hg2, h3idx]
    omega
  have hlookup : (g s3).history[((g s3).historyIndex - 1).toNat]? = some (snapshotOf s0) := by
    rw [hg1, hidxnat]
    exact hsec'
  rw [undo_eq _ _ hcond hlookup]
  refine ⟨rfl, ?_⟩
  have hcond2 : ((g s3).historyIndex - 1 : Int) < (((g s3).history.length : Int)) - 1 := by
    rw [hg1, hg2, h3idx]
    omega
  have hidxnat2 : (((g s3).historyIndex - 1) + 1).toNat = s3.history.length - 1 := by
    rw [hg2, h3idx]
    omega
  have hlookup2 : (g s3).history[(((g s3).historyIndex - 1) + 1).toNat]? =
      some (snapshotOf (f (saveToHistory s0))) := by
    rw [hg1, hidxnat2]
    exact htop
  rw [redo_eq _ _ hcond2 hlookup2]
  rfl

/-- Witness for the amended C1 at a concrete one-track state with
`updateTrack` gain changes as the two mutations. -/
theorem undo_restores_initial_redo_restores_A_witness :
    snapshotOf (undo (updateTrack "t1" { gain := some 2 }
        (saveToHistory (updateTrack "t1" { gain := some 1 }
          (saveToHistory sampleState))))) = snapshotOf sampleState ∧
    snapshotOf (redo (undo (updateTrack "t1" { gain := some 2 }
        (saveToHistory (updateTrack "t1" { gain := some 1 }
          (saveToHistory sampleState)))))) =
      snapshotOf (updateTrack "t1" { gain := some 1 } (saveToHistory sampleState)) :=
  undo_restores_initial_redo_restores_A sampleState
    (updateTrack "t1" { gain := some 1 }) (updateTrack "t1" { gain := some 2 })
    (fun _ => ⟨rfl, rfl⟩) (fun _ => ⟨rfl, rfl⟩)

/-! ## Claim C4 — which mutators snapshot the pre-mutation state -/

/-- **C4, counterexample.**  The claim says *every* Timeline-Model-mutating
operation (explicitly including `updateTrack`) calls `saveSnapshot()` before
mutating.  `updateTrack` performs its mutation with the history left exactly
as it was — from an empty history it stays empty, while a pre-mutation
snapshot would have seeded it. -/
theorem updateTrack_no_history_counterexample :
    (updateTrack "t1" { gain := some 5 } sampleState).history ≠
      (saveToHistory sampleState).history := by
  decide

/-- **C4, amended.**  Of the listed Timeline-Model mutators, `addTrack`,
`removeTrack`, `setTracks`, `clearTracks`, `addEnvelopePoint` and
`removeEnvelopePoint` call `saveToHistory()` first — their resulting history
is exactly that of `saveToHistory` on the pre-mutation state — but
`updateTrack` and `updateEnvelopePoint` mutate without touching the history
at all. -/
theorem history_discipline_of_mutators :
    (∀ (s : EditorState) (take : Take) (newId : String),
      (addTrack take newId s).history = (saveToHistory s).history ∧
      (addTrack take newId s).historyIndex = (saveToHistory s).historyIndex) ∧
    (∀ (s : EditorState) (trackId : String),
      (removeTrack trackId s).history = (saveToHistory s).history ∧
      (removeTrack trackId s).historyIndex = (saveToHistory s).historyIndex) ∧
    (∀ (s : EditorState) (tracks : List AudioTrack),
      (setTracks tracks s).history = (saveToHistory s).history ∧
      (setTracks tracks s).historyIndex = (saveToHistory s).historyIndex) ∧
    (∀ s : EditorState,
      (clearTracks s).history = (saveToHistory s).history ∧
      (clearTracks s).historyIndex = (saveToHistory s).historyIndex) ∧
    (∀ (s : EditorState) (trackId : String) (time volume : ℚ) (newId : String),
      (addEnvelopePoint trackId time volume newId s).history = (saveToHistory s).history ∧
      (addEnvelopePoint trackId time volume newId s).historyIndex =
        (saveToHistory s).historyIndex) ∧
    (∀ (s : EditorState) (trackId pointId : String),
      (removeEnvelopePoint trackId pointId s).history = (saveToHistory s).history ∧
      (removeEnvelopePoint trackId pointId s).historyIndex = (saveToHistory s).historyIndex) ∧
    (∀ (s : EditorState) (trackId : String) (updates : TrackUpdate),
      (updateTrack trackId updates s).history = s.history ∧
      (updateTrack trackId updates s).historyIndex = s.historyIndex) ∧
    (∀ (s : EditorState) (trackId pointId : String) (updates : EnvelopePointUpdate),
      (updateEnvelopePoint trackId pointId updates s).history = s.history ∧
      (updateEnvelopePoint trackId pointId updates s).historyIndex = s.historyIndex) := by
  refine ⟨?_, ?_, ?_, ?_, ?_, ?_, ?_, ?_⟩ <;> intros <;> exact ⟨rfl, rfl⟩

/-! ## Claim C5 — envelope point ordering -/

/-- The Timeline-Model invariant: envelope points ascending by time. -/
def SortedByTime (l : List EnvelopePoint) : Prop :=
  l.Pairwise pointTimeLE

/-- The claim's duplicate-freedom: no two points share the same time. -/
def TimesNodup (l : List EnvelopePoint) : Prop :=
  (l.map (fun p => p.time)).Nodup

instance (l : List EnvelopePoint) : Decidable (SortedByTime l) := by
  unfold SortedByTime
  infer_instance

instance (l : List EnvelopePoint) : Decidable (TimesNodup l) := by
  unfold TimesNodup
  infer_instance

theorem sortedByTime_insertionSort (l : List EnvelopePoint) :
    SortedByTime (List.insertionSort pointTimeLE l) :=
  List.sorted_insertionSort pointTimeLE l

/-- One envelope operation of the store, with the clock/random-generated
point id supplied as data. -/
inductive EnvOp where
  | add (trackId : String) (time volume : ℚ) (newId : String)
  | update (trackId pointId : String) (u : EnvelopePointUpdate)
  | remove (trackId pointId : String)
deriving DecidableEq, Repr

def applyEnvOp : EnvOp → EditorState → EditorState
  | .add trackId time volume newId, s => addEnvelopePoint trackId time volume newId s
  | .update trackId pointId u, s => updateEnvelopePoint trackId pointId u s
  | .remove trackId pointId, s => removeEnvelopePoint trackId pointId s

def applyEnvOps (ops : List EnvOp) (s : EditorState) : EditorState :=
  ops.foldl (fun s op => applyEnvOp op s) s

theorem applyEnvOp_sorted (op : EnvOp) (s : EditorState)
    (hs : ∀ t ∈ s.tracks, SortedByTime t.envelopePoints) :
    ∀ t ∈ (applyEnvOp op s).tracks, SortedByTime t.envelopePoints := by
  intro t ht
  cases op with
  | add trackId time volume newId =>
    simp only [applyEnvOp, addEnvelopePoint, saveToHistory_tracks, List.mem_map] at ht
    obtain ⟨t0, ht0, rfl⟩ := ht
    by_cases h : t0.id = trackId <;> simp only [h, if_true, if_false, reduceIte]
    · exact sortedByTime_insertionSort _
    · exact hs t0 ht0
  | update trackId pointId u =>
    simp only [applyEnvOp, updateEnvelopePoint, List.mem_map] at ht
    obtain ⟨t0, ht0, rfl⟩ := ht
    by_cases h : t0.id = trackId <;> simp only [h, if_true, if_false, reduceIte]
    · exact sortedByTime_insertionSort _
    · exact hs t0 ht0
  | remove trackId pointId =>
    simp only [applyEnvOp, removeEnvelopePoint, saveToHistory_tracks, List.mem_map] at ht
    obtain ⟨t0, ht0, rfl⟩ := ht
    by_cases h : t0.id = trackId <;> simp only [h, if_true, if_false, reduceIte]
    · exact List.Pairwise.sublist (List.filter_sublist _) (hs t0 ht0)
    · exact hs t0 ht0

/-- **C5, counterexample.**  The claim asserts that after any sequence of
envelope operations the point list is sorted ascending *and* duplicate-free
by time (last write winning a collision).  Adding two points at time 1 keeps
both: the store only appends and re-sorts, it never merges equal times. -/
theorem duplicate_envelope_time_counterexample :
    ¬(∀ t ∈ (applyEnvOps [EnvOp.add "t1" 1 0 "p1", EnvOp.add "t1" 1 5 "p2"] sampleState).tracks,
        SortedByTime t.envelopePoints ∧ TimesNodup t.envelopePoints) := by
  decide

/-- **C5, amended.**  After any finite sequence of
`add/update/removeEnvelopePoint` operations from a state whose tracks all
have time-sorted envelope points, every track's `envelopePoints` is still
sorted ascending by time (non-strictly); points with equal times are all
retained, so duplicate-freedom does not hold. -/
theorem envelopePoints_sorted_after_ops (s : EditorState)
    (hs : ∀ t ∈ s.tracks, SortedByTime t.envelopePoints) (ops : List EnvOp) :
    ∀ t ∈ (applyEnvOps ops s).tracks, SortedByTime t.envelopePoints := by
  induction ops generalizing s with
  | nil => exact hs
  | cons op ops ih => exact ih _ (applyEnvOp_sorted op s hs)

/-- Witness for the amended C5 on a concrete two-operation sequence. -/
theorem envelopePoints_sorted_after_ops_witness :
    (∀ t ∈ sampleState.tracks, SortedByTime t.envelopePoints) ∧
    (∀ t ∈ (applyEnvOps [EnvOp.add "t1" 2 0 "p1", EnvOp.add "t1" 1 3 "p2"] sampleState).tracks,
      SortedByTime t.envelopePoints) :=
  ⟨by decide, envelopePoints_sorted_after_ops sampleState (by decide) _⟩

/-! ## Claim C6 — history cap of 50 -/

/-- `k` iterations of "move the selection marker to `i`, then
`saveSnapshot()`": the marker makes the 60 pushed snapshots distinguishable
so the eviction order is observable. -/
def saveSnapshotSeq (k : ℕ) : EditorState :=
  (List.range k).foldl
    (fun s (i : ℕ) => saveToHistory (setSelection (some (i : ℚ)) (some (i : ℚ)) s)) initialState

theorem saveSnapshotSeq_succ (k : ℕ) :
    saveSnapshotSeq (k + 1) =
      saveToHistory (setSelection (some (k : ℚ)) (some (k : ℚ)) (saveSnapshotSeq k)) := by
  unfold saveSnapshotSeq
  rw [List.range_succ, List.foldl_append]
  rfl

set_option maxRecDepth 40000 in
/-- **C6.**  Pushing 60 snapshots from an empty history leaves exactly 50
entries — the snapshots numbered 10..59, i.e. the oldest 10 evicted — with
the cursor at index 49, the newest entry; and after every one of the 60
pushes `0 ≤ historyIndex < history.length` holds. -/
theorem history_cap_sixty :
    (saveSnapshotSeq 60).history.length = 50 ∧
    (saveSnapshotSeq 60).historyIndex = 49 ∧
    (saveSnapshotSeq 60).history.map (fun h => h.selectedRegionStart) =
      ((List.range 60).drop 10).map (fun i => some (i : ℚ)) ∧
    ∀ k : ℕ, 1 ≤ k → k ≤ 60 →
      0 ≤ (saveSnapshotSeq k).historyIndex ∧
      (saveSnapshotSeq k).historyIndex < ((saveSnapshotSeq k).history.length : Int) := by
  refine ⟨by decide, by decide, by decide, ?_⟩
  intro k h1 _
  obtain ⟨j, rfl⟩ : ∃ j, k = j + 1 := ⟨k - 1, by omega⟩
  rw [saveSnapshotSeq_succ]
  have hidx := saveToHistory_historyIndex
    (setSelection (some (j : ℚ)) (some (j : ℚ)) (saveSnapshotSeq j))
  have hne := saveToHistory_history_ne_nil
    (setSelection (some (j : ℚ)) (some (j : ℚ)) (saveSnapshotSeq j))
  have hlen := List.length_pos.mpr hne
  omega

/-- Witness instantiating the bounded-cursor part of C6 at the 60th push. -/
theorem history_cap_sixty_witness :
    0 ≤ (saveSnapshotSeq 60).historyIndex ∧
    (saveSnapshotSeq 60).historyIndex < ((saveSnapshotSeq 60).history.length : Int) :=
  history_cap_sixty.2.2.2 60 (by norm_num) (by norm_num)

/-! ## Filter Graph Compiler — speed decomposition
(`AudioProcessor.changeSpeed`, preload.ts lines 254-280) -/

/-- The first `while` of `changeSpeed` (lines 261-264): while the remaining
ratio exceeds 2.0, emit an `atempo=2.0` stage and halve the ratio.  Both
loops are modelled with explicit fuel because the code's own termination is
at issue (claim C10): `none` means the fuel ran out with the guard still
true, `some` that the loop exited by itself. -/
def halveLoop (fuel : ℕ) (filters : List ℚ) (r : ℚ) : Option (List ℚ × ℚ) :=
  if 2 < r then
    match fuel with
    | 0 => none
    | f + 1 => halveLoop f (filters ++ [2]) (r / 2)
  else some (filters, r)

/-- The second `while` (lines 266-269): while the remaining ratio is below
0.5, emit an `atempo=0.5` stage and double the ratio. -/
def doubleLoop (fuel : ℕ) (filters : List ℚ) (r : ℚ) : Option (List ℚ × ℚ) :=
  if r < 1/2 then
    match fuel with
    | 0 => none
    | f + 1 => doubleLoop f (filters ++ [1/2]) (2 * r)
  else some (filters, r)

/-- The `atempo` stage ratios emitted by `changeSpeed` (lines 257-270): the
two loops followed by the final `atempo=<remaining ratio>` stage. -/
def changeSpeedStages (fuel1 fuel2 : ℕ) (speed : ℚ) : Option (List ℚ) :=
  match halveLoop fuel1 [] speed with
  | none => none
  | some (filters, r1) =>
    match doubleLoop fuel2 filters r1 with
    | none => none
    | some (filters2, r2) => some (filters2 ++ [r2])

theorem halveLoop_sound (fuel : ℕ) :
    ∀ (filters : List ℚ) (r : ℚ) (out : List ℚ × ℚ),
      halveLoop fuel filters r = some out →
      out.1.prod * out.2 = filters.prod * r ∧ out.2 ≤ 2 ∧ (0 < r → 0 < out.2) ∧
      ∀ x ∈ out.1, x ∈ filters ∨ x = 2 := by
  induction fuel with
  | zero =>
    intro filters r out h
    rw [halveLoop] at h
    split at h
    · exact absurd h (by simp)
    · next hr =>
      cases h
      exact ⟨rfl, le_of_not_lt hr, fun h0 => h0, fun x hx => Or.inl hx⟩
  | succ f ih =>
    intro filters r out h
    rw [halveLoop] at h
    split at h
    · next hr =>
      obtain ⟨hprod, hle, hpos, hmem⟩ := ih _ _ _ h
      refine ⟨?_, hle, fun h0 => hpos (by linarith), ?_⟩
      · rw [hprod, List.prod_append]
        simp only [List.prod_cons, List.prod_nil]
        ring
      · intro x hx
        rcases hmem x hx with hx1 | hx1
        · rcases List.mem_append.1 hx1 with h1 | h2
          · exact Or.inl h1
          · simp only [List.mem_singleton] at h2
            exact Or.inr h2
        · exact Or.inr hx1
    · next hr =>
      cases h
      exact ⟨rfl, le_of_not_lt hr, fun h0 => h0, fun x hx => Or.inl hx⟩

theorem doubleLoop_sound (fuel : ℕ) :
    ∀ (filters : List ℚ) (r : ℚ) (out : List ℚ × ℚ),
      doubleLoop fuel filters r = some out →
      out.1.prod * out.2 = filters.prod * r ∧ 1/2 ≤ out.2 ∧ (r ≤ 2 → out.2 ≤ 2) ∧
      ∀ x ∈ out.1, x ∈ filters ∨ x = 1/2 := by
  induction fuel with
  | zero =>
    intro filters r out h
    rw [doubleLoop] at h
    split at h
    · exact absurd h (by simp)
    · next hr =>
      cases h
      exact ⟨rfl, le_of_not_lt hr, fun h2 => h2, fun x hx => Or.inl hx⟩
  | succ f ih =>
    intro filters r out h
    rw [doubleLoop] at h
    split at h
    · next hr =>
      obtain ⟨hprod, hge, hle, hmem⟩ := ih _ _ _ h
      refine ⟨?_, hge, fun _ => hle (by linarith), ?_⟩
      · rw [hprod, List.prod_append]
        simp only [List.prod_cons, List.prod_nil]
        ring
      · intro x hx
        rcases hmem x hx with hx1 | hx1
        · rcases List.mem_append.1 hx1 with h1 | h2
          · exact Or.inl h1
          · simp only [List.mem_singleton] at h2
            exact Or.inr h2
        · exact Or.inr hx1
    · next hr =>
      cases h
      exact ⟨rfl, le_of_not_lt hr, fun h2 => h2, fun x hx => Or.inl hx⟩

theorem halveLoop_total (fuel : ℕ) :
    ∀ (filters : List ℚ) (r : ℚ), r ≤ 2 * 2 ^ fuel →
      ∃ out, halveLoop fuel filters r = some out := by
  induction fuel with
  | zero =>
    intro filters r h
    rw [halveLoop, if_neg (by push_neg; simpa using h)]
    exact ⟨_, rfl⟩
  | succ f ih =>
    intro filters r h
    rw [halveLoop]
    split
    · exact ih _ _ (by rw [pow_succ] at h; linarith)
    · exact ⟨_, rfl⟩

theorem doubleLoop_total (fuel : ℕ) :
    ∀ (filters : List ℚ) (r : ℚ), 1/2 ≤ r * 2 ^ fuel →
      ∃ out, doubleLoop fuel filters r = some out := by
  induction fuel with
  | zero =>
    intro filters r h
    rw [doubleLoop, if_neg (by push_neg; simpa using h)]
    exact ⟨_, rfl⟩
  | succ f ih =>
    intro filters r h
    rw [doubleLoop]
    split
    · refine ih _ _ ?_
      rw [pow_succ] at h
      linarith
    · exact ⟨_, rfl⟩

theorem doubleLoop_exists (r : ℚ) (hr : 0 < r) (filters : List ℚ) :
    ∃ fuel out, doubleLoop fuel filters r = some out := by
  obtain ⟨n, hn⟩ := exists_nat_gt (1 / (2 * r))
  have hcast : (n : ℚ) < 2 ^ n := by
    exact_mod_cast Nat.lt_two_pow n
  have hp : (0 : ℚ) < 2 ^ n := by positivity
  have hlt : 1 / (2 * r) < 2 ^ n := hn.trans hcast
  have hkey : 1 / 2 ≤ r * 2 ^ n := by
    rw [div_lt_iff₀ (by linarith)] at hlt
    nlinarith
  obtain ⟨out, hout⟩ := doubleLoop_total n filters r hkey
  exact ⟨n, out, hout⟩

/-- **C7.**  For every speed ratio `r ∈ (0, 8]` the loops of `changeSpeed`
exit, the product of the emitted `atempo` stage ratios equals `r` exactly
(rational model, hence a fortiori within floating-point tolerance), and
every emitted stage ratio lies in `[0.5, 2.0]`. -/
theorem speed_stages_product_and_range (r : ℚ) (h1 : 0 < r) (h2 : r ≤ 8) :
    ∃ fuel1 fuel2 stages, changeSpeedStages fuel1 fuel2 r = some stages ∧
      stages.prod = r ∧ ∀ x ∈ stages, 1/2 ≤ x ∧ x ≤ 2 := by
  obtain ⟨out1, hout1⟩ := halveLoop_total 2 [] r (by norm_num; linarith)
  obtain ⟨hprod1, hle1, hpos1, hmem1⟩ := halveLoop_sound 2 [] r out1 hout1
  obtain ⟨fuel2, out2, hout2⟩ := doubleLoop_exists out1.2 (hpos1 h1) out1.1
  obtain ⟨hprod2, hge2, hle2, hmem2⟩ := doubleLoop_sound fuel2 out1.1 out1.2 out2 hout2
  refine ⟨2, fuel2, out2.1 ++ [out2.2], ?_, ?_, ?_⟩
  · simp only [changeSpeedStages, hout1, hout2]
  · rw [List.prod_append, List.prod_singleton, hprod2, hprod1]
    simp
  · intro x hx
    rcases List.mem_append.1 hx with hx1 | hx1
    · rcases hmem2 x hx1 with hx2 | rfl
      · rcases hmem1 x hx2 with hx3 | rfl
        · simp at hx3
        · norm_num
      · norm_num
    · simp only [List.mem_singleton] at hx1
      subst hx1
      exact ⟨hge2, hle2 hle1⟩

/-- Witness instantiating C7 at `r = 5` (stages `2, 2, 5/4`). -/
theorem speed_stages_product_and_range_witness :
    (0 : ℚ) < 5 ∧ (5 : ℚ) ≤ 8 ∧
    ∃ fuel1 fuel2 stages, changeSpeedStages fuel1 fuel2 5 = some stages ∧
      stages.prod = 5 ∧ ∀ x ∈ stages, 1/2 ≤ x ∧ x ≤ 2 :=
  ⟨by norm_num, by norm_num, speed_stages_product_and_range 5 (by norm_num) (by norm_num)⟩

/-- **C10.**  The stage-emission loops of `changeSpeed` exit for every
requested ratio `r > 0` (some fuel suffices), but for `r ≤ 0` the doubling
loop's guard `currentSpeed < 0.5` stays true forever (doubling a
non-positive ratio keeps it non-positive), so no amount of fuel makes the
decomposition finish: termination holds only under the unchecked
precondition `r > 0`. -/
theorem changeSpeed_terminates_iff_positive :
    (∀ r : ℚ, 0 < r → ∃ fuel1 fuel2 stages, changeSpeedStages fuel1 fuel2 r = some stages) ∧
    (∀ r : ℚ, r ≤ 0 → ∀ fuel1 fuel2, changeSpeedStages fuel1 fuel2 r = none) := by
  constructor
  · intro r hr
    obtain ⟨n, hn⟩ := exists_nat_gt r
    have hcast : (n : ℚ) < 2 ^ n := by
      exact_mod_cast Nat.lt_two_pow n
    have hp : (0 : ℚ) < 2 ^ n := by positivity
    obtain ⟨out1, hout1⟩ := halveLoop_total n [] r (by linarith)
    obtain ⟨hprod1, hle1, hpos1, hmem1⟩ := halveLoop_sound n [] r out1 hout1
    obtain ⟨fuel2, out2, hout2⟩ := doubleLoop_exists out1.2 (hpos1 hr) out1.1
    exact ⟨n, fuel2, out2.1 ++ [out2.2], by simp only [changeSpeedStages, hout1, hout2]⟩
  · intro r hr fuel1 fuel2
    have h1 : halveLoop fuel1 [] r = some ([], r) := by
      rw [halveLoop.eq_def, if_neg (by push_neg; linarith)]
    have h2 : ∀ (fuel : ℕ) (filters : List ℚ) (x : ℚ), x ≤ 0 →
        doubleLoop fuel filters x = none := by
      intro fuel
      induction fuel with
      | zero =>
        intro filters x hx
        rw [doubleLoop, if_pos (by linarith)]
      | succ f ih =>
        intro filters x hx
        rw [doubleLoop, if_pos (by linarith)]
        exact ih _ _ (by linarith)
    simp only [changeSpeedStages, h1, h2 fuel2 [] r hr]

/-- Witness for C10: the decomposition finishes for `r = 3` with some fuel,
and never finishes for `r = -1` (sampled at fuels 4 and 7). -/
theorem changeSpeed_terminates_iff_positive_witness :
    (∃ fuel1 fuel2 stages, changeSpeedStages fuel1 fuel2 3 = some stages) ∧
    changeSpeedStages 4 7 (-1) = none :=
  ⟨changeSpeed_terminates_iff_positive.1 3 (by norm_num),
   changeSpeed_terminates_iff_positive.2 (-1) (by norm_num) 4 7⟩

/-! ## Selection-Scoped Transform Pipeline
(`AudioProcessor.deleteSelection` preload.ts lines 341-381,
`AudioProcessor.applyEffectToSelection` lines 391-452, the IPC handlers
main.ts lines 402-418, and the caller-side clamp
AdvancedAudioEditor.tsx lines 416-428) -/

/-- Error sources of a pipeline run: the message thrown at preload.ts line
348 plus the failure of each kind of external step (ffprobe, an ffmpeg
trim / filter / concat invocation, `fs.copyFileSync`). -/
inductive PipeError where
  | cannotDeleteEntire
  | probeFail
  | trimFail
  | transformFail
  | concatFail
  | copyFail
deriving DecidableEq, Repr

/-- Oracle deciding the outcome of each external step of one pipeline
invocation: `duration` is what `getDuration` reports, the flags say whether
the corresponding ffmpeg/fs call succeeds. -/
structure TransformOracle where
  probeOk : Bool
  duration : ℚ
  trimBeforeOk : Bool
  trimSelectionOk : Bool
  transformOk : Bool
  trimAfterOk : Bool
  concatOk : Bool
  copyOk : Bool
  trimSingleOk : Bool
deriving DecidableEq, Repr

instance : DecidableEq (Except PipeError String)
  | .ok a, .ok b => decidable_of_iff (a = b) (by simp)
  | .error a, .error b => decidable_of_iff (a = b) (by simp)
  | .ok _, .error _ => isFalse (fun h => Except.noConfusion h)
  | .error _, .ok _ => isFalse (fun h => Except.noConfusion h)

/-- Trace of one pipeline invocation: the outcome, the temporary files
created by the successful steps before it returned, and the temporary files
whose deletion (`fs.unlinkSync` in try/catch) was attempted. -/
structure PipeRun where
  result : Except PipeError String
  created : List String
  unlinked : List String
deriving DecidableEq, Repr

/-- `AudioProcessor.deleteSelection` (preload.ts lines 341-381).  Control
flow is modelled statement by statement: a failing `await` rejects the
promise right there, so everything after it — including the `unlinkSync`
cleanup at lines 377-378 — does not run. -/
def deleteSelectionRun (o : TransformOracle) (startTime endTime : ℚ) : PipeRun :=
  if !o.probeOk then ⟨.error .probeFail, [], []⟩
  else if startTime ≤ 0 ∧ o.duration ≤ endTime then ⟨.error .cannotDeleteEntire, [], []⟩
  else if startTime ≤ 0 then
    if o.trimSingleOk then ⟨.ok "output", [], []⟩ else ⟨.error .trimFail, [], []⟩
  else if o.duration ≤ endTime then
    if o.trimSingleOk then ⟨.ok "output", [], []⟩ else ⟨.error .trimFail, [], []⟩
  else if !o.trimBeforeOk then ⟨.error .trimFail, [], []⟩
  else if !o.trimAfterOk then ⟨.error .trimFail, ["temp_before"], []⟩
  else if !o.concatOk then ⟨.error .concatFail, ["temp_before", "temp_after"], []⟩
  else ⟨.ok "output", ["temp_before", "temp_after"], ["temp_before", "temp_after"]⟩

/-- `AudioProcessor.applyEffectToSelection` (preload.ts lines 391-452).
`partsToConcat` decides the copy-vs-concat branch; the four `unlinkSync`
attempts at lines 446-449 run only after an output was produced, and are
recorded even for paths that were never created (their failure is
swallowed by the try/catch). -/
def applyEffectToSelectionRun (o : TransformOracle) (startTime endTime : ℚ) : PipeRun :=
  if !o.probeOk then ⟨.error .probeFail, [], []⟩
  else if 0 < startTime ∧ !o.trimBeforeOk then ⟨.error .trimFail, [], []⟩
  else
    let created0 : List String := if 0 < startTime then ["temp_before"] else []
    if !o.trimSelectionOk then ⟨.error .trimFail, created0, []⟩
    else if !o.transformOk then ⟨.error .transformFail, created0 ++ ["temp_selection"], []⟩
    else if endTime < o.duration ∧ !o.trimAfterOk then
      ⟨.error .trimFail, created0 ++ ["temp_selection", "temp_selection_processed"], []⟩
    else
      let created := created0 ++ ["temp_selection", "temp_selection_processed"] ++
        (if endTime < o.duration then ["temp_after"] else [])
      let parts := created0 ++ ["temp_selection_processed"] ++
        (if endTime < o.duration then ["temp_after"] else [])
      let cleanup := ["temp_before", "temp_selection", "temp_selection_processed", "temp_after"]
      if parts.length = 1 then
        if o.copyOk then ⟨.ok "output", created, cleanup⟩
        else ⟨.error .copyFail, created, []⟩
      else
        if o.concatOk then ⟨.ok "output", created, cleanup⟩
        else ⟨.error .concatFail, created, []⟩

/-- The `audio:deleteSelection` / `audio:applyEffectToSelection` IPC
handlers (main.ts lines 402-418): try/catch surfacing
`{success: true, path}` or `{success: false, error}`. -/
def ipcSurface (run : PipeRun) : Bool × Option PipeError :=
  match run.result with
  | .ok _ => (true, none)
  | .error e => (false, some e)

/-- The clamp of the selection-scoped branch of `applyEffect`
(AdvancedAudioEditor.tsx lines 416-428): normalize the drag direction with
min/max, convert to track-local time by subtracting the track offset, clamp
the start below at 0 (`Math.max(0, startTime)`) and the end above at the
track duration (`Math.min(track.duration, endTime)`). -/
def clampedRange (selStart selEnd offset trackDuration : ℚ) : ℚ × ℚ :=
  (max 0 (min selStart selEnd - offset), min trackDuration (max selStart selEnd - offset))

/-- `applyEffect`'s selection branch: clamp, then invoke the pipeline. -/
def applyEffectSelectionScoped (o : TransformOracle)
    (selStart selEnd offset trackDuration : ℚ) : PipeRun :=
  applyEffectToSelectionRun o (clampedRange selStart selEnd offset trackDuration).1
    (clampedRange selStart selEnd offset trackDuration).2

/-- An engine run on a 10-second source in which every external step
succeeds. -/
def allOkOracle : TransformOracle :=
  ⟨true, 10, true, true, true, true, true, true, true⟩

/-- Same source, but the concat step fails. -/
def concatFailOracle : TransformOracle := { allOkOracle with concatOk := false }

/-! ## Claim C3 — cleanup of temporaries on failure -/

/-- **C3, counterexample.**  The claim says every temporary created before a
failure is deleted even when `concat` fails.  On a 10-second source with
selection `(3, 6)` and a failing concat, `applyEffectToSelection` has
created `temp_before`, `temp_selection`, `temp_selection_processed` and
`temp_after`, then rejects at the concat `await`; the `unlinkSync` lines
after it never run, so nothing is deleted. -/
theorem concat_failure_leaks_temporaries_counterexample :
    (applyEffectToSelectionRun concatFailOracle 3 6).result =
      Except.error PipeError.concatFail ∧
    (applyEffectToSelectionRun concatFailOracle 3 6).created =
      ["temp_before", "temp_selection", "temp_selection_processed", "temp_after"] ∧
    (applyEffectToSelectionRun concatFailOracle 3 6).unlinked = [] := by
  decide

set_option maxHeartbeats 1000000 in
/-- **C3, amended.**  In `applyEffectToSelection` and in the middle-deletion
branch of `deleteSelection`, the first failing step aborts the remaining
steps and surfaces its error, and every temporary is deleted when **all**
steps succeed; but on any failure no deletion is attempted — temporaries
created before the failure are leaked, not cleaned up. -/
theorem cleanup_only_on_success (o : TransformOracle) (startTime endTime : ℚ) :
    ((applyEffectToSelectionRun o startTime endTime).result.isOk = true →
      ∀ f ∈ (applyEffectToSelectionRun o startTime endTime).created,
        f ∈ (applyEffectToSelectionRun o startTime endTime).unlinked) ∧
    ((applyEffectToSelectionRun o startTime endTime).result.isOk = false →
      (applyEffectToSelectionRun o startTime endTime).unlinked = []) ∧
    ((deleteSelectionRun o startTime endTime).result.isOk = true →
      ∀ f ∈ (deleteSelectionRun o startTime endTime).created,
        f ∈ (deleteSelectionRun o startTime endTime).unlinked) ∧
    ((deleteSelectionRun o startTime endTime).result.isOk = false →
      (deleteSelectionRun o startTime endTime).unlinked = []) := by
  refine ⟨?_, ?_, ?_, ?_⟩
  · unfold applyEffectToSelectionRun
    dsimp only
    split_ifs <;> decide
  · unfold applyEffectToSelectionRun
    dsimp only
    split_ifs <;> decide
  · unfold deleteSelectionRun
    split_ifs <;> decide
  · unfold deleteSelectionRun
    split_ifs <;> decide

/-- Witness for the amended C3: all steps succeed on selection `(3, 6)` and
every created temporary is among the attempted deletions; with the failing
concat nothing is deleted. -/
theorem cleanup_only_on_success_witness :
    ((applyEffectToSelectionRun allOkOracle 3 6).result.isOk = true ∧
      ∀ f ∈ (applyEffectToSelectionRun allOkOracle 3 6).created,
        f ∈ (applyEffectToSelectionRun allOkOracle 3 6).unlinked) ∧
    ((applyEffectToSelectionRun concatFailOracle 3 6).result.isOk = false ∧
      (applyEffectToSelectionRun concatFailOracle 3 6).unlinked = []) :=
  ⟨⟨by decide, (cleanup_only_on_success allOkOracle 3 6).1 (by decide)⟩,
   ⟨by decide, (cleanup_only_on_success concatFailOracle 3 6).2.1 (by decide)⟩⟩

/-! ## Claim C8 — whole-track deletion is rejected -/

/-- **C8.**  When the probe succeeds and the range covers the whole track
(`start ≤ 0` and `end ≥ duration`), `deleteSelection` throws
`Cannot delete entire audio` before any trim runs: no output and no
temporary file is produced, and the IPC handler surfaces
`{success: false, error}`. -/
theorem deleteSelection_whole_track_rejected (o : TransformOracle)
    (startTime endTime : ℚ) (hp : o.probeOk = true)
    (h1 : startTime ≤ 0) (h2 : o.duration ≤ endTime) :
    deleteSelectionRun o startTime endTime =
      ⟨Except.error PipeError.cannotDeleteEntire, [], []⟩ ∧
    ipcSurface (deleteSelectionRun o startTime endTime) =
      (false, some PipeError.cannotDeleteEntire) := by
  have hrun : deleteSelectionRun o startTime endTime =
      ⟨Except.error PipeError.cannotDeleteEntire, [], []⟩ := by
    unfold deleteSelectionRun
    rw [if_neg (by simp [hp]), if_pos ⟨h1, h2⟩]
  exact ⟨hrun, by rw [hrun]; rfl⟩

/-- Witness for C8 at `start = 0`, `end = 12` on the 10-second source. -/
theorem deleteSelection_whole_track_rejected_witness :
    allOkOracle.probeOk = true ∧ (0 : ℚ) ≤ 0 ∧ allOkOracle.duration ≤ 12 ∧
    deleteSelectionRun allOkOracle 0 12 =
      ⟨Except.error PipeError.cannotDeleteEntire, [], []⟩ :=
  ⟨rfl, le_refl 0, by norm_num [allOkOracle],
   (deleteSelection_whole_track_rejected allOkOracle 0 12 rfl (le_refl 0)
     (by norm_num [allOkOracle])).1⟩

/-! ## Claim C9 — clamping and zero-length selections -/

/-- **C9, counterexample.**  The claim says a selection collapsing to zero
length after clamping is rejected as `InvalidSelection` rather than
processed.  For a selection `(10, 15)` on a 10-second track the caller
clamps to `(10, 10)`, and `applyEffectToSelection` — which contains no
selection-validity check at all — runs to completion and succeeds. -/
theorem zero_length_selection_processed_counterexample :
    clampedRange 10 15 0 10 = (10, 10) ∧
    (applyEffectSelectionScoped allOkOracle 10 15 0 10).result =
      Except.ok "output" := by
  have hcl : clampedRange 10 15 0 10 = (10, 10) := by
    unfold clampedRange
    rw [min_def, max_def]
    norm_num
  refine ⟨hcl, ?_⟩
  unfold applyEffectSelectionScoped
  rw [hcl]
  decide

set_option maxHeartbeats 1000000 in
/-- **C9, amended.**  The caller clamps the track-local start from below at
0 and the end from above at the track duration (one-sided clamps only), and
a selection that collapses to zero length (`start = end`) is **not**
rejected: the pipeline processes it and succeeds whenever the engine steps
succeed. -/
theorem selection_clamped_zero_length_processed :
    (∀ selStart selEnd offset trackDuration : ℚ,
      0 ≤ (clampedRange selStart selEnd offset trackDuration).1 ∧
      (clampedRange selStart selEnd offset trackDuration).2 ≤ trackDuration) ∧
    (∀ (o : TransformOracle) (t : ℚ), o.probeOk = true → o.trimBeforeOk = true →
      o.trimSelectionOk = true → o.transformOk = true → o.trimAfterOk = true →
      o.concatOk = true → o.copyOk = true →
      (applyEffectToSelectionRun o t t).result = Except.ok "output") := by
  constructor
  · intro selStart selEnd offset trackDuration
    exact ⟨le_max_left _ _, min_le_left _ _⟩
  · intro o t hp h1 h2 h3 h4 h5 h6
    unfold applyEffectToSelectionRun
    dsimp only
    split_ifs <;> simp_all

/-- Witness for the amended C9: the clamp bounds at the counterexample
selection, and a successful run of the zero-length selection `(10, 10)`. -/
theorem selection_clamped_zero_length_processed_witness :
    (0 ≤ (clampedRange 10 15 0 10).1 ∧ (clampedRange 10 15 0 10).2 ≤ 10) ∧
    (allOkOracle.probeOk = true ∧
      (applyEffectToSelectionRun allOkOracle 10 10).result = Except.ok "output") :=
  ⟨selection_clamped_zero_length_processed.1 10 15 0 10,
   ⟨rfl, selection_clamped_zero_length_processed.2 allOkOracle 10
     rfl rfl rfl rfl rfl rfl rfl⟩⟩

/-! ## Filter Graph Compiler — volume envelope expression
(`AudioProcessor.applyVolumeEnvelope`, preload.ts lines 457-515)

The source builds the ffmpeg `volume` filter expression as a string,
interpolating JS-rendered numbers (`point.time`, `timeDiff`, and
`Math.pow(10, volume/20)`).  A JS number renders as digits with an optional
sign, decimal point and exponent — never a parenthesis — so the rendering
functions are abstracted as arbitrary parenthesis-free string producers:
`renderNum` for times and time differences, `renderGain` (a function of the
dB value) for the rendered linear gain `Math.pow(10, dB/20)`. -/

/-- Contribution of one character to the parenthesis balance. -/
def charBal (c : Char) : Int :=
  if c = '(' then 1 else if c = ')' then -1 else 0

/-- Net parenthesis balance of an expression string. -/
def parenBalance (s : String) : Int := (s.data.map charBal).sum

/-- A string with no parenthesis characters at all. -/
def ParenFree (s : String) : Prop := ∀ c ∈ s.data, charBal c = 0

instance (s : String) : Decidable (ParenFree s) := by
  unfold ParenFree
  infer_instance

/-- Correct bracketing: every prefix balance is non-negative and the total
balance is zero. -/
def bracketsOk (s : String) : Bool :=
  let scan := s.data.foldl
    (fun (acc : Int × Bool) c =>
      (acc.1 + charBal c, acc.2 && decide (0 ≤ acc.1 + charBal c)))
    (0, true)
  scan.2 && decide (scan.1 = 0)

theorem parenBalance_append (s t : String) :
    parenBalance (s ++ t) = parenBalance s + parenBalance t := by
  simp [parenBalance, String.data_append]

theorem parenFree_balance (s : String) (h : ParenFree s) : parenBalance s = 0 := by
  unfold parenBalance
  exact List.sum_eq_zero (fun x hx => by
    obtain ⟨c, hc, rfl⟩ := List.mem_map.1 hx
    exact h c hc)

theorem parenBalance_foldl (l : List String) (s : String) :
    parenBalance (l.foldl (fun r t => r ++ t) s) =
      parenBalance s + (l.map parenBalance).sum := by
  induction l generalizing s with
  | nil => simp
  | cons t l ih =>
    simp [ih, parenBalance_append]
    ring

theorem parenBalance_join (l : List String) :
    parenBalance (String.join l) = (l.map parenBalance).sum := by
  have h := parenBalance_foldl l ""
  simpa [String.join, parenBalance] using h

theorem scan_fst (l : List Char) (b : Int) (ok : Bool) :
    (l.foldl
      (fun (acc : Int × Bool) c =>
        (acc.1 + charBal c, acc.2 && decide (0 ≤ acc.1 + charBal c)))
      (b, ok)).1 = b + (l.map charBal).sum := by
  induction l generalizing b ok with
  | nil => simp
  | cons c l ih =>
    simp [ih]
    ring

theorem bracketsOk_eq_false (s : String) (h : parenBalance s ≠ 0) :
    bracketsOk s = false := by
  unfold bracketsOk
  dsimp only
  have h1 : (s.data.foldl
      (fun (acc : Int × Bool) c =>
        (acc.1 + charBal c, acc.2 && decide (0 ≤ acc.1 + charBal c)))
      (0, true)).1 = parenBalance s := by
    simpa [parenBalance] using scan_fst s.data 0 true
  rw [h1, decide_eq_false h, Bool.and_false]

/-- The successive string chunks appended to `volumeExpr` by
`applyVolumeEnvelope` (preload.ts lines 477-505): the indexed `for` loop
with its lookahead `volumePoints[i + 1]`, the `i === 0 && point.time > 0`
hold-branch, the interpolation branch, the hold-last branch, and finally
one `)` per point from the closing loop (lines 503-505). -/
def volumeExprPieces (renderNum renderGain : ℚ → String)
    (volumePoints : List (ℚ × ℚ)) : List String :=
  ((List.range volumePoints.length).foldl (fun expr i =>
    match volumePoints[i]? with
    | none => expr
    | some point =>
      let nextPoint := volumePoints[i + 1]?
      let volLinear := renderGain point.2
      let expr :=
        if i = 0 ∧ 0 < point.1 then
          expr ++ ["if(lt(t,", renderNum point.1, "),", volLinear, ","]
        else expr
      match nextPoint with
      | some np =>
          expr ++ ["if(lt(t,", renderNum np.1, "),", volLinear, "+(",
            renderGain np.2, "-", volLinear, ")*(t-", renderNum point.1,
            ")/", renderNum (np.1 - point.1), ","]
      | none => expr ++ [volLinear]) []) ++
  (List.range volumePoints.length).map (fun _ => ")")

/-- The full `volumeExpr` string handed to the `volume` filter. -/
def volumeExpr (renderNum renderGain : ℚ → String)
    (volumePoints : List (ℚ × ℚ)) : String :=
  String.join (volumeExprPieces renderNum renderGain volumePoints)

theorem volumeExprPieces_example (rn rg : ℚ → String) :
    volumeExprPieces rn rg [(0, 0), (2, -12)] =
      ["if(lt(t,", rn 2, "),", rg 0, "+(", rg (-12), "-", rg 0, ")*(t-",
        rn 0, ")/", rn 2, ",", rg (-12), ")", ")"] := by
  norm_num [volumeExprPieces, List.range_succ]

/-- **C2.**  For the claim's own example `[(0, 0 dB), (2, −12 dB)]` — a list
whose first point lies at time 0 — the compiled volume expression is **not**
correctly bracketed, for any parenthesis-free number rendering: the loop body
opens only one `if(` (the `i === 0 && point.time > 0` hold-branch is skipped
when the first time is 0) while the closing loop appends one `)` per point,
so the expression ends with one surplus `)` and has net balance −1.  The
claim's evaluation at `t = 1` therefore cannot happen — ffmpeg rejects the
malformed filter — and the code contradicts its own format comment at
preload.ts line 476, which shows a balanced nested conditional. -/
theorem envelope_expr_unbalanced_at_time_zero (rn rg : ℚ → String)
    (hn : ∀ q, ParenFree (rn q)) (hg : ∀ q, ParenFree (rg q)) :
    parenBalance (volumeExpr rn rg [(0, 0), (2, -12)]) = -1 ∧
    bracketsOk (volumeExpr rn rg [(0, 0), (2, -12)]) = false := by
  have hb : parenBalance (volumeExpr rn rg [(0, 0), (2, -12)]) = -1 := by
    rw [volumeExpr, parenBalance_join, volumeExprPieces_example]
    simp only [List.map_cons, List.map_nil, List.sum_cons, List.sum_nil,
      parenFree_balance _ (hn 2), parenFree_balance _ (hn 0),
      parenFree_balance _ (hg 0), parenFree_balance _ (hg (-12))]
    decide
  exact ⟨hb, bracketsOk_eq_false _ (by rw [hb]; decide)⟩

/-- Witness for C2 with concrete parenthesis-free renderings (the digits do
not matter to the balance). -/
theorem envelope_expr_unbalanced_at_time_zero_witness :
    (∀ q : ℚ, ParenFree ((fun _ => "2") q)) ∧
    parenBalance (volumeExpr (fun _ => "2") (fun _ => "0.25") [(0, 0), (2, -12)]) = -1 ∧
    bracketsOk (volumeExpr (fun _ => "2") (fun _ => "0.25") [(0, 0), (2, -12)]) = false :=
  ⟨fun _ => by show ParenFree "2"; decide,
   envelope_expr_unbalanced_at_time_zero (fun _ => "2") (fun _ => "0.25")
     (fun _ => by show ParenFree "2"; decide) (fun _ => by show ParenFree "0.25"; decide)⟩

end Replik
